import Mathlib

/-!
Verification of the dg-electron audio-transcription core.

This file shallowly embeds the parts of the source that the checked
properties talk about:

* the control-channel codec `AudioProcess.processStderrMessages`
  (line-delimited JSON on the subprocess's stderr), together with a
  fuel-based model of JavaScript's `JSON.parse`;
* the `AudioProcess.start` readiness race (ready / error / exit /
  timeout handlers guarded by the `resolved` flag) and `kill`;
* the `DeepgramSocket` state (ws handle, `closing`, `connected`,
  `reconnectAttempts`), its `connect` / `send` guards, and its
  `close` / `error` / `open` WebSocket handlers including the
  reconnect policy `shouldReconnect` / `attemptReconnect`;
* the `DeepgramBatch` accumulator and `transcribe` / `parseResponse`;
* the `TranscriptionStream` frame forwarding and `handleResponse`
  decoding step.

JavaScript numbers are modelled as rationals (`Rat`); none of the
properties below depend on floating-point rounding.  Buffers are
modelled as lists of bytes (`List Nat`).
-/

namespace DgElectron

/-- JavaScript numbers, modelled as rationals. -/
abbrev JsNum := Rat

/-- A raw binary audio frame (contents of a Node `Buffer`). -/
abbrev Frame := List Nat

/-! ## A model of JavaScript's `JSON.parse`

`AudioProcess.processStderrMessages` calls `JSON.parse` on each
newline-terminated stderr line.  We model parsed JSON values as a tree;
number literals keep their raw lexeme (their numeric value is never
inspected by the code under verification). -/

/-- A parsed JSON value (`JSON.parse` result).  Object members are kept
in textual order; numbers keep the raw lexeme. -/
inductive Json where
  | null
  | bool (b : Bool)
  | num (raw : String)
  | str (s : String)
  | arr (elems : List Json)
  | obj (members : List (String × Json))

/-- The left brace character, written via its code point. -/
def lbrace : Char := Char.ofNat 123

/-- The right brace character, written via its code point. -/
def rbrace : Char := Char.ofNat 125

/-- JSON insignificant whitespace. -/
def jsonWs (c : Char) : Bool :=
  c = ' ' ∨ c = '\t' ∨ c = '\n' ∨ c = '\r'

/-- Drop leading JSON whitespace. -/
def skipWs : List Char → List Char
  | [] => []
  | c :: cs => if jsonWs c then skipWs cs else c :: cs

/-- One hex digit. -/
def hexDigit? (c : Char) : Option Nat :=
  if '0' ≤ c ∧ c ≤ '9' then some (c.toNat - '0'.toNat)
  else if 'a' ≤ c ∧ c ≤ 'f' then some (c.toNat - 'a'.toNat + 10)
  else if 'A' ≤ c ∧ c ≤ 'F' then some (c.toNat - 'A'.toNat + 10)
  else none

/-- Parse the body of a JSON string literal (the opening quote already
consumed); returns the decoded characters and the rest of the input. -/
def parseStringBody : Nat → List Char → Option (List Char × List Char)
  | 0, _ => none
  | _ + 1, [] => none
  | fuel + 1, c :: cs =>
    if c = '"' then some ([], cs)
    else if c = '\\' then
      match cs with
      | [] => none
      | e :: cs1 =>
        let dec? : Option (Char × List Char) :=
          if e = '"' then some ('"', cs1)
          else if e = '\\' then some ('\\', cs1)
          else if e = '/' then some ('/', cs1)
          else if e = 'b' then some ('\x08', cs1)
          else if e = 'f' then some ('\x0c', cs1)
          else if e = 'n' then some ('\n', cs1)
          else if e = 'r' then some ('\r', cs1)
          else if e = 't' then some ('\t', cs1)
          else if e = 'u' then
            match cs1 with
            | a :: b :: c2 :: d :: rest =>
              match hexDigit? a, hexDigit? b, hexDigit? c2, hexDigit? d with
              | some ha, some hb, some hc, some hd =>
                some (Char.ofNat (((ha * 16 + hb) * 16 + hc) * 16 + hd), rest)
              | _, _, _, _ => none
            | _ => none
          else none
        match dec? with
        | some (ch, rest) =>
          match parseStringBody fuel rest with
          | some (s, r) => some (ch :: s, r)
          | none => none
        | none => none
    else if c.toNat < 32 then none
    else
      match parseStringBody fuel cs with
      | some (s, r) => some (c :: s, r)
      | none => none

/-- Longest prefix of decimal digits. -/
def spanDigits : List Char → List Char × List Char
  | [] => ([], [])
  | c :: cs =>
    if c.isDigit then
      let (ds, r) := spanDigits cs
      (c :: ds, r)
    else ([], c :: cs)

/-- Optional fraction part of a JSON number. -/
def parseFrac : List Char → Option (List Char × List Char)
  | '.' :: r =>
    let (ds, r1) := spanDigits r
    if ds = [] then none else some ('.' :: ds, r1)
  | cs => some ([], cs)

/-- Optional exponent part of a JSON number. -/
def parseExp : List Char → Option (List Char × List Char)
  | c :: r =>
    if c = 'e' ∨ c = 'E' then
      let (sgn, r1) :=
        match r with
        | s :: r2 => if s = '+' ∨ s = '-' then ([s], r2) else (([] : List Char), s :: r2)
        | [] => ([], [])
      let (ds, r2) := spanDigits r1
      if ds = [] then none else some (c :: (sgn ++ ds), r2)
    else some ([], c :: r)
  | [] => some ([], [])

/-- Parse a JSON number, returning its raw lexeme. -/
def parseNumber (cs : List Char) : Option (List Char × List Char) :=
  let (neg, cs1) :=
    match cs with
    | '-' :: r => ([('-' : Char)], r)
    | _ => (([] : List Char), cs)
  let (intPart, cs2) := spanDigits cs1
  if intPart = [] then none
  else if intPart.head? = some '0' ∧ intPart.length > 1 then none
  else
    match parseFrac cs2 with
    | none => none
    | some (fracPart, cs3) =>
      match parseExp cs3 with
      | none => none
      | some (expPart, cs4) => some (neg ++ intPart ++ fracPart ++ expPart, cs4)

/-- Mode of the recursive-descent JSON parser: a whole value, the
members of an object, or the elements of an array. -/
inductive PMode where
  | value
  | members (acc : List (String × Json))
  | elems (acc : List Json)

/-- Fuel-based recursive-descent JSON parser (the grammar accepted by
JavaScript's `JSON.parse`). -/
def parseJ : Nat → PMode → List Char → Option (Json × List Char)
  | 0, _, _ => none
  | fuel + 1, .value, cs =>
    match skipWs cs with
    | [] => none
    | c :: rest =>
      if c = lbrace then
        match skipWs rest with
        | c2 :: r2 =>
          if c2 = rbrace then some (.obj [], r2) else parseJ fuel (.members []) rest
        | [] => none
      else if c = '[' then
        match skipWs rest with
        | ']' :: r2 => some (.arr [], r2)
        | _ => parseJ fuel (.elems []) rest
      else if c = '"' then
        match parseStringBody (rest.length + 1) rest with
        | some (s, r) => some (.str (String.mk s), r)
        | none => none
      else if c = 't' then
        match rest with
        | 'r' :: 'u' :: 'e' :: r => some (.bool true, r)
        | _ => none
      else if c = 'f' then
        match rest with
        | 'a' :: 'l' :: 's' :: 'e' :: r => some (.bool false, r)
        | _ => none
      else if c = 'n' then
        match rest with
        | 'u' :: 'l' :: 'l' :: r => some (.null, r)
        | _ => none
      else
        match parseNumber (c :: rest) with
        | some (raw, r) => some (.num (String.mk raw), r)
        | none => none
  | fuel + 1, .members acc, cs =>
    match skipWs cs with
    | '"' :: rest =>
      match parseStringBody (rest.length + 1) rest with
      | some (key, r1) =>
        match skipWs r1 with
        | ':' :: r2 =>
          match parseJ fuel .value r2 with
          | some (v, r3) =>
            match skipWs r3 with
            | c :: r4 =>
              if c = ',' then parseJ fuel (.members (acc ++ [(String.mk key, v)])) r4
              else if c = rbrace then some (.obj (acc ++ [(String.mk key, v)]), r4)
              else none
            | [] => none
          | none => none
        | _ => none
      | none => none
    | _ => none
  | fuel + 1, .elems acc, cs =>
    match parseJ fuel .value cs with
    | some (v, r1) =>
      match skipWs r1 with
      | ',' :: r2 => parseJ fuel (.elems (acc ++ [v])) r2
      | ']' :: r2 => some (.arr (acc ++ [v]), r2)
      | _ => none
    | none => none

/-- Model of JavaScript's `JSON.parse`: parses the whole string (up to
trailing whitespace) or fails. -/
def Json.parse (s : String) : Option Json :=
  match parseJ (s.data.length + 1) .value s.data with
  | some (v, rest) => if skipWs rest = [] then some v else none
  | none => none

/-- The `type` field of a parsed control message (`message.type` in the
source). -/
def jsonType : Json → Option String
  | .obj members =>
    match members.lookup "type" with
    | some (.str s) => some s
    | _ => none
  | _ => none

/-! ## The control-channel codec (`AudioProcess.processStderrMessages`)

The supervisor appends each stderr chunk to `this.stderrBuffer`, splits
the buffer on `"\n"` (JavaScript `String.prototype.split`), keeps the
last (possibly empty) fragment as the new buffer, and for every other
line: trims it, skips it if empty, `JSON.parse`s it, and hands the
message to the handler; a parse failure is logged and dropped. -/

/-- Whitespace stripped by JavaScript `String.prototype.trim`. -/
def jsWhitespace (c : Char) : Bool :=
  c = ' ' ∨ c = '\t' ∨ c = '\n' ∨ c = '\r' ∨ c = '\x0c' ∨ c = '\x0b'

/-- JavaScript `line.trim()`. -/
def jsTrim (cs : List Char) : List Char :=
  ((cs.dropWhile jsWhitespace).reverse.dropWhile jsWhitespace).reverse

/-- JavaScript `s.split("\n")`: the pieces between newlines, in order;
always returns at least one piece. -/
def splitNl : List Char → List (List Char)
  | [] => [[]]
  | c :: cs =>
    if c = '\n' then [] :: splitNl cs
    else
      match splitNl cs with
      | [] => [[c]]
      | l :: ls => (c :: l) :: ls

/-- The pieces joined back with newlines (the decomposition a caller of
the codec has in mind: complete lines plus a trailing fragment). -/
def interNl : List (List Char) → List Char
  | [] => []
  | [l] => l
  | l :: ls => l ++ '\n' :: interNl ls

/-- Decode one complete stderr line: trim, skip if empty, `JSON.parse`;
a line that fails to parse yields nothing (dropped, never an error). -/
def decodeLine (line : List Char) : Option Json :=
  let trimmed := jsTrim line
  if trimmed = [] then none else Json.parse (String.mk trimmed)

/-- `AudioProcess.processStderrMessages` acting on the whole buffer:
returns the decoded messages (in order) and the retained fragment. -/
def processStderrMessages (stderrBuffer : List Char) : List Json × List Char :=
  let lines := splitNl stderrBuffer
  let newBuffer := lines.getLast?.getD []
  let complete := lines.dropLast
  (complete.filterMap decodeLine, newBuffer)

/-- One stderr `data` event: `this.stderrBuffer += data.toString()`
followed by `this.processStderrMessages(handler)`. -/
def feedStderr (stderrBuffer data : List Char) : List Json × List Char :=
  processStderrMessages (stderrBuffer ++ data)

/-! ## The process supervisor's readiness race (`AudioProcess.start`)

`start()` spawns the child, registers stderr / `error` / `exit`
handlers and a readiness timer, and settles its promise at the first of:
a `ready` control message, an `error` control message, process exit, or
the timeout (which also force-kills the child).  The `resolved` flag
guards every settle path.  The stderr message handler has arms only for
`message.type === "ready"` and `message.type === "error"`; every other
control message type (including `audio_level` and `stopped`) falls
through with no effect. -/

/-- One FFT bin of an `audio_level` control message. -/
structure FFTBin where
  freq : JsNum
  magnitude : JsNum
deriving DecidableEq, Repr

/-- A decoded control message (the `BinaryMessage` interface): a `type`
discriminator plus optional payload fields. -/
structure BinaryMessage where
  type : String
  sampleRate : Option JsNum := none
  channels : Option JsNum := none
  bitDepth : Option JsNum := none
  chunkDurationMs : Option JsNum := none
  code : Option String := none
  message : Option String := none
  reason : Option String := none
  frequencyBands : Option (List JsNum) := none
  rms : Option JsNum := none
  peak : Option JsNum := none
  fft : Option (List FFTBin) := none
  timestamp : Option JsNum := none
deriving DecidableEq, Repr

/-- The error taxonomy used by the supervisor (`PermissionDeniedError`
and `BinaryError` from `errors.ts`). -/
inductive ProcError where
  | permissionDenied (permission : String) (message : Option String)
  | binaryError (binaryName : String) (message : String) (exitCode : Option Int)
deriving DecidableEq, Repr

/-- JavaScript `a.includes(b)` on strings. -/
def jsIncludes (a b : String) : Bool :=
  decide (List.IsInfix b.data a.data)

/-- Classification of an `error` control message inside the stderr
handler: `PERMISSION_DENIED` becomes a `PermissionDeniedError`
(labelled by whether the supervisor's name mentions `system`), anything
else a `BinaryError` with a fallback message. -/
def classifyErrorMessage (name : String) (m : BinaryMessage) : ProcError :=
  if m.code = some "PERMISSION_DENIED" then
    .permissionDenied (if jsIncludes name "system" then "system_audio" else "microphone") m.message
  else
    .binaryError name (m.message.getD "Unknown binary error") none

/-- Rendering of a nullable exit code / signal inside the JavaScript
template literal of the exit-before-ready message. -/
def optToString {α : Type} [ToString α] : Option α → String
  | some a => toString a
  | none => "null"

/-- The `BinaryError` built by the exit handler when the process exits
before readiness. -/
def exitBeforeReadyError (name : String) (code : Option Int) (signal : Option String) : ProcError :=
  .binaryError name
    ("Process exited before ready (code: " ++ optToString code ++ ", signal: " ++ optToString signal ++ ")")
    code

/-- The `BinaryError` built by the readiness timer. -/
def readyTimeoutError (name : String) (timeoutMs : Nat) : ProcError :=
  .binaryError name ("Binary did not send ready message within " ++ toString timeoutMs ++ "ms") none

deriving instance DecidableEq for Except

/-- An occurrence observed by the handlers registered in `start()`. -/
inductive StartEvent where
  | stderrMsg (m : BinaryMessage)
  | spawnError (message : String)
  | exited (code : Option Int) (signal : Option String)
  | timeoutFired
deriving DecidableEq, Repr

/-- State of one in-flight `start()` call, together with everything the
supervisor has emitted.  `process = true` models `this.process ≠ null`
(a live child handle); `outcome` is the settle result of the `start()`
promise. -/
structure StartState where
  resolved : Bool := false
  process : Bool := true
  outcome : Option (Except ProcError BinaryMessage) := none
  readyEvents : List BinaryMessage := []
  errorEvents : List ProcError := []
  exitEvents : List (Option Int × Option String) := []
deriving DecidableEq, Repr

/-- The state right after `spawn` succeeded and the handlers were
registered. -/
def startInit : StartState := {}

/-- One handler invocation of the `start()` race.  Mirrors, arm by arm,
the stderr message handler, the child `error` handler, the child `exit`
handler (which always clears `this.process` and always re-emits
`exit`), and the readiness timer (which force-kills via `this.kill()`,
clearing `this.process`). -/
def startStep (name : String) (timeoutMs : Nat) (s : StartState) : StartEvent → StartState
  | .stderrMsg m =>
    if m.type = "ready" ∧ s.resolved = false then
      { s with resolved := true, outcome := some (.ok m), readyEvents := s.readyEvents ++ [m] }
    else if m.type = "error" then
      let e := classifyErrorMessage name m
      if s.resolved = false then
        { s with resolved := true, outcome := some (.error e) }
      else
        { s with errorEvents := s.errorEvents ++ [e] }
    else s
  | .spawnError msg =>
    if s.resolved = false then
      { s with resolved := true, outcome := some (.error (.binaryError name msg none)) }
    else
      { s with errorEvents := s.errorEvents ++ [.binaryError name msg none] }
  | .exited code signal =>
    let s1 := { s with process := false }
    let s2 :=
      if s1.resolved = false then
        { s1 with resolved := true, outcome := some (.error (exitBeforeReadyError name code signal)) }
      else s1
    { s2 with exitEvents := s2.exitEvents ++ [(code, signal)] }
  | .timeoutFired =>
    if s.resolved = false then
      { s with resolved := true, process := false,
               outcome := some (.error (readyTimeoutError name timeoutMs)) }
    else s

/-- A whole sequence of handler invocations. -/
def runStart (name : String) (timeoutMs : Nat) (events : List StartEvent) : StartState :=
  events.foldl (startStep name timeoutMs) startInit

/-- Whether an occurrence settles a still-pending `start()` promise,
and with what result.  `ready` resolves; an `error` message, a child
`error`, an exit, and the timeout reject.  All other control message
types decide nothing. -/
def decidingOutcome (name : String) (timeoutMs : Nat) : StartEvent → Option (Except ProcError BinaryMessage)
  | .stderrMsg m =>
    if m.type = "ready" then some (.ok m)
    else if m.type = "error" then some (.error (classifyErrorMessage name m))
    else none
  | .spawnError msg => some (.error (.binaryError name msg none))
  | .exited code signal => some (.error (exitBeforeReadyError name code signal))
  | .timeoutFired => some (.error (readyTimeoutError name timeoutMs))

/-- Whether an occurrence settles a pending `start()` at all. -/
def isDeciding (name : String) (timeoutMs : Nat) (e : StartEvent) : Bool :=
  (decidingOutcome name timeoutMs e).isSome

/-! ## The remote socket client (`DeepgramSocket`) -/

/-- WebSocket ready states. -/
inductive ReadyState where
  | CONNECTING
  | OPEN
  | CLOSING
  | CLOSED
deriving DecidableEq, Repr

/-- The `ConnectionError` class: message, optional status/close code,
and a retryable flag that defaults to `true`. -/
structure ConnectionError where
  message : String
  code : Option Nat := none
  retryable : Bool := true
deriving DecidableEq, Repr

/-- State of one `DeepgramSocket` instance.  `ws = some rs` models a
non-null `this.ws` whose `readyState` is `rs`; `sent` is the sequence
of binary frames actually written to the wire, i.e. what the remote
sink receives. -/
structure DeepgramSocket where
  ws : Option ReadyState := none
  reconnectAttempts : Nat := 0
  closing : Bool := false
  connected : Bool := false
  sent : List Frame := []
deriving DecidableEq, Repr

/-- `MAX_RECONNECT_ATTEMPTS`. -/
def MAX_RECONNECT_ATTEMPTS : Nat := 5

/-- `BASE_RECONNECT_DELAY_MS`. -/
def BASE_RECONNECT_DELAY_MS : Nat := 1000

/-- `connect()`: throws `Already connected` if `this.ws` is non-null,
otherwise resets `closing` and the attempt counter and opens a fresh
connection (`createConnection` assigns the new handle to `this.ws`). -/
def DeepgramSocket.connect (s : DeepgramSocket) : Except ConnectionError DeepgramSocket :=
  if s.ws ≠ none then
    .error { message := "Already connected" }
  else
    .ok { s with closing := false, reconnectAttempts := 0, ws := some .CONNECTING }

/-- `send(data)`: writes the frame iff `this.ws?.readyState === OPEN`;
otherwise the frame is silently dropped. -/
def DeepgramSocket.send (s : DeepgramSocket) (data : Frame) : DeepgramSocket :=
  if s.ws = some .OPEN then { s with sent := s.sent ++ [data] } else s

/-- `close()`: sets `closing`, and on every path ends with
`this.ws = null`. -/
def DeepgramSocket.close (s : DeepgramSocket) : DeepgramSocket :=
  { s with closing := true, ws := none }

/-- `shouldReconnect(code)`: never for a normal closure (1000) or an
authentication failure (1008, 4001); otherwise only while the attempt
counter is below the cap. -/
def DeepgramSocket.shouldReconnect (s : DeepgramSocket) (code : Nat) : Bool :=
  if code = 1000 ∨ code = 1008 ∨ code = 4001 then false
  else decide (s.reconnectAttempts < MAX_RECONNECT_ATTEMPTS)

/-- A WebSocket event delivered to the handlers that
`createConnection` registered on the current `this.ws`. -/
inductive SocketEvent where
  | opened
  | errored (message : String)
  | closed (code : Nat)
deriving DecidableEq, Repr

/-- Effects of one WebSocket handler invocation: the next state, any
`error` events emitted to subscribers, a rejection handed to the
pending first `connect()` promise (only possible while
`reconnectAttempts = 0`), and the backoff delay of a reconnect attempt
scheduled by `attemptReconnect`. -/
structure SocketStepOut where
  st : DeepgramSocket
  emittedErrors : List ConnectionError := []
  connectRejection : Option ConnectionError := none
  reconnectDelay : Option Nat := none
deriving DecidableEq, Repr

/-- One WebSocket handler invocation.

* `open`: marks connected, resets the attempt counter, starts
  keepalive, resolves `createConnection`.
* `error`: while `reconnectAttempts === 0` the in-flight first
  `connect()` promise is rejected (nothing is emitted); during a
  reconnect attempt a retryable `ConnectionError` is emitted instead —
  and in that case the `createConnection` promise of the attempt is
  never rejected, so `attemptReconnect`'s `catch` arm (the only place
  that builds the non-retryable exhaustion error) is not reached.
* `close`: marks disconnected (the handle stays assigned, only its
  `readyState` is `CLOSED`); when no `close()` was requested and
  `shouldReconnect` holds, `attemptReconnect` increments the counter,
  computes `BASE * 2^(attempts-1)` and, after the delay, opens the next
  connection (handle back to `CONNECTING`). -/
def socketStep (s : DeepgramSocket) : SocketEvent → SocketStepOut
  | .opened =>
    { st := { s with connected := true, reconnectAttempts := 0, ws := some .OPEN } }
  | .errored msg =>
    let s1 := { s with connected := false }
    if s.reconnectAttempts = 0 then
      { st := s1, connectRejection := some { message := "Failed to connect: " ++ msg } }
    else
      { st := s1, emittedErrors := [{ message := msg }] }
  | .closed code =>
    let s1 := { s with connected := false, ws := some .CLOSED }
    if s1.closing = false ∧ s1.shouldReconnect code = true then
      let s2 := { s1 with reconnectAttempts := s1.reconnectAttempts + 1, ws := some .CONNECTING }
      { st := s2, reconnectDelay := some (BASE_RECONNECT_DELAY_MS * 2 ^ (s2.reconnectAttempts - 1)) }
    else { st := s1 }

/-- A whole sequence of WebSocket events; collects the state and every
`error` event emitted to subscribers. -/
def socketRun (s : DeepgramSocket) (events : List SocketEvent) : DeepgramSocket × List ConnectionError :=
  events.foldl
    (fun acc e =>
      let out := socketStep acc.1 e
      (out.st, acc.2 ++ out.emittedErrors))
    (s, [])

/-- A socket that has successfully connected and seen no failures. -/
def connectedSocket : DeepgramSocket :=
  { ws := some .OPEN, connected := true, reconnectAttempts := 0, closing := false, sent := [] }

/-- One failed reconnect attempt as the `ws` library delivers it: an
`error` event followed by an abnormal-closure `close` (code 1006). -/
def failedAttempt : List SocketEvent :=
  [.errored "connect ECONNREFUSED", .closed 1006]

/-- An unexpected closure followed by five failed reconnect attempts:
the exhaustion trace of claim C6. -/
def exhaustionTrace : List SocketEvent :=
  SocketEvent.closed 1006 :: (List.replicate 5 failedAttempt).flatten

/-! ## Transcript events and the streaming decode step
(`TranscriptionStream.handleResponse`) -/

/-- A word detail as it appears both in Deepgram responses
(`DeepgramWord`) and in emitted events (`TranscriptWord`): the two
interfaces have the same fields.  `endTime` embeds the source field
`end` (a reserved word in Lean). -/
structure DeepgramWord where
  word : String
  start : JsNum
  endTime : JsNum
  confidence : JsNum
  punctuated_word : Option String := none
deriving DecidableEq, Repr

/-- One alternative of a streaming `Results` response. -/
structure DeepgramAlternative where
  transcript : String
  confidence : JsNum
  words : List DeepgramWord
deriving DecidableEq, Repr

/-- The `channel` object of a streaming `Results` response. -/
structure DgChannel where
  alternatives : List DeepgramAlternative
deriving DecidableEq, Repr

/-- A streaming WebSocket response (`DeepgramResponse`), discriminated
by `type`; undefined fields are `none`. -/
structure DeepgramResponse where
  type : String
  channel_index : Option (List JsNum) := none
  duration : Option JsNum := none
  start : Option JsNum := none
  is_final : Option Bool := none
  speech_final : Option Bool := none
  channel : Option DgChannel := none
  last_word_end : Option JsNum := none
  errorText : Option String := none
deriving DecidableEq, Repr

/-- A `TranscriptEvent` as emitted to consumers. -/
structure TranscriptEvent where
  source : String
  transcript : String
  is_final : Bool
  confidence : JsNum
  words : List DeepgramWord
  speech_final : Option Bool := none
  channel_index : Option (List JsNum) := none
  duration : Option JsNum := none
  start : Option JsNum := none
deriving DecidableEq, Repr

/-- The field-by-field copy `handleResponse` and `parseResponse` apply
to each word (`w => ({word: w.word, start: w.start, ...})`). -/
def wordCopy (w : DeepgramWord) : DeepgramWord :=
  { word := w.word, start := w.start, endTime := w.endTime,
    confidence := w.confidence, punctuated_word := w.punctuated_word }

/-- What the streaming pipeline emits for one decoded response. -/
inductive StreamEmit where
  | transcript (e : TranscriptEvent)
  | utterance_end (source : String) (last_word_end : Option JsNum)
deriving DecidableEq, Repr

/-- `response.channel?.alternatives[0]`, guarded by
`response.channel?.alternatives?.length` being truthy. -/
def firstAlt (r : DeepgramResponse) : Option DeepgramAlternative :=
  r.channel.bind (fun ch => ch.alternatives.head?)

/-- `TranscriptionStream.handleResponse`: a `Results` response with a
non-empty alternatives array emits a transcript event unless the first
alternative's transcript is falsy (empty); an `UtteranceEnd` response
emits an utterance-end event; everything else is ignored. -/
def handleResponse (label : String) (r : DeepgramResponse) : Option StreamEmit :=
  match (if r.type = "Results" then firstAlt r else none) with
  | some alt =>
    if alt.transcript = "" then none
    else
      some (.transcript
        { source := label
          transcript := alt.transcript
          is_final := r.is_final.getD false
          confidence := alt.confidence
          words := alt.words.map wordCopy
          speech_final := r.speech_final
          channel_index := r.channel_index
          duration := r.duration
          start := r.start })
  | none =>
    if r.type = "UtteranceEnd" then some (.utterance_end label r.last_word_end)
    else none

/-- Frame forwarding wired by `TranscriptionStream.start`: each `data`
chunk from the audio source is handed synchronously to
`this.socket.send(chunk)`. -/
def forwardFrames (socket : DeepgramSocket) (frames : List Frame) : DeepgramSocket :=
  frames.foldl DeepgramSocket.send socket

/-! ## The remote batch uploader (`DeepgramBatch`) -/

/-- One alternative of a batch upload response; Deepgram may omit
fields, hence the options (`alt.confidence ?? 0`, `alt.words ?? []`). -/
structure BatchAlt where
  transcript : String
  confidence : Option JsNum := none
  words : Option (List DeepgramWord) := none
deriving DecidableEq, Repr

/-- One channel group of a batch upload response. -/
structure BatchChannel where
  alternatives : Option (List BatchAlt) := none
deriving DecidableEq, Repr

/-- The `results` object of a batch upload response. -/
structure BatchResults where
  channels : Option (List BatchChannel) := none
deriving DecidableEq, Repr

/-- The `metadata` object of a batch upload response. -/
structure BatchMetadata where
  duration : Option JsNum := none
deriving DecidableEq, Repr

/-- A parsed batch upload response body. -/
structure BatchResponse where
  results : Option BatchResults := none
  metadata : Option BatchMetadata := none
deriving DecidableEq, Repr

/-- `response.results?.channels ?? []`. -/
def responseChannels (r : BatchResponse) : List BatchChannel :=
  (r.results.bind BatchResults.channels).getD []

/-- `DeepgramBatch.parseResponse`: one `TranscriptEvent` per
alternative with non-empty (truthy) transcript, across all channels in
response order; the uploader labels every event `"system"` (the caller
re-tags it), marks it final, and copies words field by field. -/
def parseResponse (r : BatchResponse) : List TranscriptEvent :=
  (responseChannels r).flatMap (fun channel =>
    (channel.alternatives.getD []).filterMap (fun alt =>
      if alt.transcript = "" then none
      else
        some
          { source := "system"
            transcript := alt.transcript
            is_final := true
            confidence := alt.confidence.getD 0
            words := (alt.words.getD []).map wordCopy
            duration := r.metadata.bind BatchMetadata.duration }))

/-- The in-memory accumulator state of one `DeepgramBatch`. -/
structure DeepgramBatch where
  chunks : List Frame := []
  totalBytes : Nat := 0
deriving DecidableEq, Repr

/-- `addChunk`. -/
def DeepgramBatch.addChunk (b : DeepgramBatch) (chunk : Frame) : DeepgramBatch :=
  { chunks := b.chunks ++ [chunk], totalBytes := b.totalBytes + chunk.length }

/-- `clear`. -/
def DeepgramBatch.clear (_b : DeepgramBatch) : DeepgramBatch :=
  { chunks := [], totalBytes := 0 }

/-- `bytesRecorded`. -/
def DeepgramBatch.bytesRecorded (b : DeepgramBatch) : Nat :=
  b.totalBytes

/-- How `transcribe()` can fail: the synchronous
`Error("No audio data recorded")` guard, or a `ConnectionError` from
the upload / response parse. -/
inductive TranscribeError where
  | noAudio (message : String)
  | connection (e : ConnectionError)
deriving DecidableEq, Repr

/-- `DeepgramBatch.transcribe`, with the HTTP POST modelled as an
oracle `post` from the concatenated payload to either a parsed 2xx JSON
body or a `ConnectionError` (non-2xx status / invalid JSON / network
failure).  Returns the result, the (unchanged) accumulator state, and
the number of network calls performed. -/
def DeepgramBatch.transcribe (b : DeepgramBatch)
    (post : Frame → Except ConnectionError BatchResponse) :
    Except TranscribeError (List TranscriptEvent) × DeepgramBatch × Nat :=
  if b.totalBytes = 0 then
    (.error (.noAudio "No audio data recorded"), b, 0)
  else
    let audioBuffer := b.chunks.flatten
    match post audioBuffer with
    | .ok response => (.ok (parseResponse response), b, 1)
    | .error e => (.error (.connection e), b, 1)

/-! ## Concrete inputs used by the example theorems -/

/-- First stderr chunk of the split-message example: a complete
`ready` line plus the beginning of a second message. -/
def chunkA : List Char :=
  ("\x7b\"type\":\"ready\",\"sampleRate\":16000\x7d\n\x7b\"ty").data

/-- Second stderr chunk of the split-message example: the rest of the
`stopped` message and its terminating newline. -/
def chunkB : List Char :=
  ("pe\":\"stopped\",\"reason\":\"x\"\x7d\n").data

/-- The complete first line of the split-message example. -/
def lineA : List Char :=
  ("\x7b\"type\":\"ready\",\"sampleRate\":16000\x7d").data

/-- The fragment retained after the first chunk. -/
def fragA : List Char :=
  ("\x7b\"ty").data

/-- A newline-terminated line that is not JSON. -/
def badChunk : List Char :=
  ("not json\n").data

/-- A concrete `ready` handshake message. -/
def readyMsg : BinaryMessage :=
  { type := "ready", sampleRate := some 16000, channels := some 1,
    bitDepth := some 16, chunkDurationMs := some 200 }

/-- A concrete `stopped` control message (decides nothing in the
readiness race). -/
def stoppedMsg : BinaryMessage :=
  { type := "stopped", reason := some "signal" }

/-- A concrete `audio_level` control message. -/
def levelMsg : BinaryMessage :=
  { type := "audio_level", rms := some (1/2), peak := some (4/5),
    fft := some [{ freq := 125, magnitude := 2/5 }], timestamp := some 123 }

/-- The supervisor state once the `ready` handshake resolved
`start()` (the running state). -/
def runningReadyState : StartState :=
  runStart "system-audio" 10000 [.stderrMsg readyMsg]

/-- A canned batch upload response: two alternatives with non-empty
text and one with empty text, spread over two channels. -/
def c8canned : BatchResponse :=
  { results := some
      { channels := some
          [ { alternatives := some
                [ { transcript := "hello", confidence := some (9/10) },
                  { transcript := "" } ] },
            { alternatives := some [ { transcript := "world" } ] } ] },
    metadata := some { duration := some 5 } }

/-- A `Results` response whose first alternative has empty text but
whose second alternative does not. -/
def c9resp : DeepgramResponse :=
  { type := "Results", is_final := some true,
    channel := some
      { alternatives :=
          [ { transcript := "", confidence := 0, words := [] },
            { transcript := "hello", confidence := 1, words := [] } ] } }

/-- A one-word alternative with non-empty text. -/
def altHello : DeepgramAlternative :=
  { transcript := "hello", confidence := 49/50,
    words := [{ word := "hello", start := 0, endTime := 1/2, confidence := 49/50 }] }

/-- A `Results` response whose first alternative is `altHello`. -/
def c9okResp : DeepgramResponse :=
  { type := "Results", is_final := some true, speech_final := some true,
    channel := some { alternatives := [altHello] } }

/-! ## Helper lemmas -/

theorem splitNl_ne_nil (cs : List Char) : splitNl cs ≠ [] := by
  induction cs with
  | nil => simp [splitNl]
  | cons c cs ih =>
    simp only [splitNl]
    split
    · simp
    · cases h : splitNl cs with
      | nil => simp
      | cons l ls => simp

theorem splitNl_no_nl (l : List Char) (h : '\n' ∉ l) : splitNl l = [l] := by
  induction l with
  | nil => rfl
  | cons c cs ih =>
    have hc : ¬ c = '\n' := fun hcn => h (hcn ▸ List.mem_cons_self c cs)
    have hcs : '\n' ∉ cs := fun hm => h (List.mem_cons_of_mem c hm)
    simp only [splitNl, if_neg hc, ih hcs]

theorem splitNl_append (xs ys : List Char) (h : '\n' ∉ xs) :
    splitNl (xs ++ ys) = (xs ++ (splitNl ys).headI) :: (splitNl ys).tail := by
  induction xs with
  | nil =>
    simp only [List.nil_append]
    cases hys : splitNl ys with
    | nil => exact absurd hys (splitNl_ne_nil ys)
    | cons l ls => simp [List.headI, List.tail]
  | cons c cs ih =>
    have hc : ¬ c = '\n' := fun hcn => h (hcn ▸ List.mem_cons_self c cs)
    have hcs : '\n' ∉ cs := fun hm => h (List.mem_cons_of_mem c hm)
    simp only [List.cons_append, splitNl, if_neg hc]
    rw [show cs.append ys = cs ++ ys from rfl, ih hcs]

theorem splitNl_interNl (parts : List (List Char)) (hne : parts ≠ [])
    (h : ∀ p ∈ parts, '\n' ∉ p) :
    splitNl (interNl parts) = parts := by
  induction parts with
  | nil => exact absurd rfl hne
  | cons p ps ih =>
    cases ps with
    | nil =>
      simp only [interNl]
      exact splitNl_no_nl p (h p (List.mem_cons_self p []))
    | cons q qs =>
      have hp : '\n' ∉ p := h p (List.mem_cons_self p (q :: qs))
      have hrest : ∀ r ∈ q :: qs, '\n' ∉ r := fun r hr => h r (List.mem_cons_of_mem p hr)
      have hi := ih (by simp) hrest
      show splitNl (p ++ '\n' :: interNl (q :: qs)) = p :: q :: qs
      rw [splitNl_append p _ hp]
      have hsplit : splitNl ('\n' :: interNl (q :: qs)) = [] :: splitNl (interNl (q :: qs)) := by
        simp [splitNl]
      rw [hsplit, hi]
      simp [List.headI, List.tail]

/-! ## Claim theorems -/

/-- C1: while the streaming pipeline is running and the remote socket
is connected (the handle's ready state is `OPEN`), every audio frame
the subprocess emits is forwarded to the remote sink: the sink receives
exactly those frames, byte-for-byte, in emission order, with nothing
dropped, duplicated, or reordered. -/
theorem c1_frame_ordering (socket : DeepgramSocket) (frames : List Frame)
    (h : socket.ws = some .OPEN) :
    (forwardFrames socket frames).sent = socket.sent ++ frames
    ∧ (forwardFrames socket frames).ws = some .OPEN := by
  induction frames generalizing socket with
  | nil => simp [forwardFrames, h]
  | cons f fs ih =>
    have hsend : socket.send f = { socket with sent := socket.sent ++ [f] } := by
      simp [DeepgramSocket.send, h]
    have hstep : forwardFrames socket (f :: fs) = forwardFrames (socket.send f) fs := rfl
    have hrec := ih { socket with sent := socket.sent ++ [f] } h
    rw [hstep, hsend]
    exact ⟨by rw [hrec.1]; simp, hrec.2⟩

/-- Witness for C1: two concrete frames through a connected socket. -/
theorem c1_frame_ordering_witness :
    (forwardFrames connectedSocket [[1, 2], [3]]).sent = [[1, 2], [3]]
    ∧ (forwardFrames connectedSocket [[1, 2], [3]]).ws = some .OPEN := by
  have h := c1_frame_ordering connectedSocket [[1, 2], [3]] (by decide)
  simpa using h

/-- C7: `transcribe()` with zero accumulated bytes fails with the
"no audio" error, performs no network call, and leaves the accumulator
and all other uploader state unchanged. -/
theorem c7_empty_guard (b : DeepgramBatch)
    (post : Frame → Except ConnectionError BatchResponse)
    (h : b.totalBytes = 0) :
    b.transcribe post = (.error (.noAudio "No audio data recorded"), b, 0) := by
  simp [DeepgramBatch.transcribe, h]

/-- Witness for C7: a freshly constructed uploader. -/
theorem c7_empty_guard_witness :
    DeepgramBatch.transcribe {} (fun _ => .error { message := "unused" })
      = (.error (.noAudio "No audio data recorded"), {}, 0) :=
  c7_empty_guard {} (fun _ => .error { message := "unused" }) rfl

/-- C10: an unexpected closure does not clear the socket handle, so a
later `connect()` on the same instance throws `Already connected`; in
general `connect()` fails whenever the handle is set, and only
`close()` clears it, so `connect()` can succeed at most once per
instance unless `close()` intervenes. -/
theorem c10_handle_not_cleared (s : DeepgramSocket) (code : Nat)
    (h : s.ws ≠ none) :
    (socketStep s (.closed code)).st.ws ≠ none
    ∧ (socketStep s (.closed code)).st.connect
        = .error { message := "Already connected" }
    ∧ (∀ s2 : DeepgramSocket, s2.ws ≠ none →
        s2.connect = .error { message := "Already connected" })
    ∧ (DeepgramSocket.close s).ws = none := by
  refine ⟨?_, ?_, ?_, rfl⟩
  · simp only [socketStep]
    split <;> simp
  · simp only [socketStep]
    split <;> simp [DeepgramSocket.connect]
  · intro s2 h2
    simp [DeepgramSocket.connect, h2]

/-- Witness for C10: an abnormal closure of a connected socket. -/
theorem c10_handle_not_cleared_witness :
    (socketStep connectedSocket (.closed 1006)).st.ws ≠ none
    ∧ (socketStep connectedSocket (.closed 1006)).st.connect
        = .error { message := "Already connected" } := by
  have h := c10_handle_not_cleared connectedSocket 1006 (by decide)
  exact ⟨h.1, h.2.1⟩

/-- C3 (failing part): the supervisor's stderr message handler has no
arm for `audio_level` control messages — processing one changes
nothing and emits nothing, in every state, although the spec and the
repository's own unit test expect a re-emitted level event. -/
theorem c3_audio_level_dropped (name : String) (timeoutMs : Nat)
    (s : StartState) (m : BinaryMessage) (h : m.type = "audio_level") :
    startStep name timeoutMs s (.stderrMsg m) = s := by
  simp only [startStep]
  rw [h]
  simp

/-- Witness for C3: a concrete `audio_level` message arriving while the
supervisor is running leaves the supervisor state untouched. -/
theorem c3_audio_level_dropped_witness :
    startStep "system-audio" 10000 runningReadyState (.stderrMsg levelMsg)
      = runningReadyState :=
  c3_audio_level_dropped "system-audio" 10000 runningReadyState levelMsg rfl

/-- C6 (failing): an unexpected closure followed by five failed
reconnect attempts emits five connection errors, all with
`retryable = true`, and no non-retryable exhaustion error — the
`catch` arm of `attemptReconnect` that builds the non-retryable error
is unreachable, because `createConnection` only rejects while
`reconnectAttempts === 0`. -/
theorem c6_exhaustion_no_final_error :
    (socketRun connectedSocket exhaustionTrace).2.length = 5
    ∧ (socketRun connectedSocket exhaustionTrace).2.all (fun e => e.retryable)
    ∧ (socketRun connectedSocket exhaustionTrace).2.filter (fun e => !e.retryable) = []
    ∧ (socketRun connectedSocket exhaustionTrace).1.reconnectAttempts
        = MAX_RECONNECT_ATTEMPTS := by
  decide

theorem socketStep_cap (s : DeepgramSocket) (e : SocketEvent)
    (h : s.reconnectAttempts ≤ MAX_RECONNECT_ATTEMPTS) :
    (socketStep s e).st.reconnectAttempts ≤ MAX_RECONNECT_ATTEMPTS := by
  cases e with
  | opened => simp [socketStep]
  | errored msg =>
    simp only [socketStep]
    split <;> simpa
  | closed code =>
    simp only [socketStep]
    split
    · rename_i hcond
      have hlt : s.reconnectAttempts < MAX_RECONNECT_ATTEMPTS := by
        have := hcond.2
        simp only [DeepgramSocket.shouldReconnect] at this
        split at this
        · exact absurd this (by simp)
        · exact of_decide_eq_true this
      simpa using hlt
    · simpa

theorem socketRun_cap (s : DeepgramSocket) (events : List SocketEvent)
    (errs : List ConnectionError)
    (h : s.reconnectAttempts ≤ MAX_RECONNECT_ATTEMPTS) :
    (events.foldl
      (fun acc e =>
        let out := socketStep acc.1 e
        (out.st, acc.2 ++ out.emittedErrors)) (s, errs)).1.reconnectAttempts
      ≤ MAX_RECONNECT_ATTEMPTS := by
  induction events generalizing s errs with
  | nil => simpa
  | cons e es ih => exact ih _ _ (socketStep_cap s e h)

/-- C5: the socket reconnects only after a closure that was not
requested by `close()` and whose code is none of 1000 / 1008 / 4001,
and only while the attempt counter is below the cap of 5; the scheduled
backoff before the (n+1)-st attempt (counter currently n) is
1000ms × 2^n, i.e. 1s, 2s, 4s, …; the counter never exceeds 5 over any
event sequence; and a successful (re)connection resets it to zero. -/
theorem c5_reconnect_policy (s : DeepgramSocket) (code : Nat)
    (events : List SocketEvent)
    (hcap : s.reconnectAttempts ≤ MAX_RECONNECT_ATTEMPTS) :
    ((socketStep s (.closed code)).reconnectDelay ≠ none ↔
      s.closing = false ∧ code ≠ 1000 ∧ code ≠ 1008 ∧ code ≠ 4001
        ∧ s.reconnectAttempts < MAX_RECONNECT_ATTEMPTS)
    ∧ (∀ d, (socketStep s (.closed code)).reconnectDelay = some d →
        d = BASE_RECONNECT_DELAY_MS * 2 ^ s.reconnectAttempts)
    ∧ (socketRun s events).1.reconnectAttempts ≤ MAX_RECONNECT_ATTEMPTS
    ∧ (socketStep s .opened).st.reconnectAttempts = 0 := by
  refine ⟨?_, ?_, socketRun_cap s events [] hcap, rfl⟩
  · simp only [socketStep]
    split
    · rename_i hcond
      simp only [DeepgramSocket.shouldReconnect] at hcond
      constructor
      · intro _
        refine ⟨hcond.1, ?_⟩
        have h2 := hcond.2
        split at h2
        · exact absurd h2 (by simp)
        · rename_i hcodes
          push_neg at hcodes
          exact ⟨hcodes.1, hcodes.2.1, hcodes.2.2, of_decide_eq_true h2⟩
      · intro _
        simp
    · rename_i hcond
      simp only [DeepgramSocket.shouldReconnect] at hcond
      simp only [ne_eq, not_true_eq_false, false_iff, not_and]
      intro hclosing h1000 h1008 h4001 hlt
      exact hcond ⟨hclosing, by
        rw [if_neg (by tauto)]
        exact decide_eq_true hlt⟩
  · intro d hd
    simp only [socketStep] at hd
    split at hd
    · simp only [Nat.add_sub_cancel, Option.some.injEq] at hd
      omega
    · simp at hd

/-- Witness for C5: the exhaustion trace from a fresh connection stays
within the attempt cap, and an `open` resets the counter. -/
theorem c5_reconnect_policy_witness :
    (socketRun connectedSocket exhaustionTrace).1.reconnectAttempts
        ≤ MAX_RECONNECT_ATTEMPTS
    ∧ (socketStep connectedSocket .opened).st.reconnectAttempts = 0 :=
  ⟨(c5_reconnect_policy connectedSocket 1006 exhaustionTrace (by decide)).2.2.1,
   (c5_reconnect_policy connectedSocket 1006 exhaustionTrace (by decide)).2.2.2⟩

theorem startStep_resolved (name : String) (timeoutMs : Nat) (s : StartState)
    (e : StartEvent) (h : s.resolved = true) :
    (startStep name timeoutMs s e).outcome = s.outcome
    ∧ (startStep name timeoutMs s e).resolved = true := by
  cases e <;> simp only [startStep, h] <;> repeat' split <;> simp_all

theorem startStep_process_mono (name : String) (timeoutMs : Nat) (s : StartState)
    (e : StartEvent) (h : s.process = false) :
    (startStep name timeoutMs s e).process = false := by
  cases e <;> simp only [startStep, h] <;> repeat' split <;> simp_all

theorem startStep_nondeciding (name : String) (timeoutMs : Nat) (s : StartState)
    (e : StartEvent) (h : decidingOutcome name timeoutMs e = none) :
    startStep name timeoutMs s e = s := by
  cases e with
  | stderrMsg m =>
    simp only [decidingOutcome] at h
    split at h
    · exact absurd h (by simp)
    · split at h
      · exact absurd h (by simp)
      · rename_i hready herror
        simp only [startStep]
        rw [if_neg (by simp [hready]), if_neg herror]
  | spawnError msg => simp [decidingOutcome] at h
  | exited code signal => simp [decidingOutcome] at h
  | timeoutFired => simp [decidingOutcome] at h

theorem startStep_deciding (name : String) (timeoutMs : Nat) (s : StartState)
    (e : StartEvent) (o : Except ProcError BinaryMessage)
    (hres : s.resolved = false) (h : decidingOutcome name timeoutMs e = some o) :
    (startStep name timeoutMs s e).outcome = some o
    ∧ (startStep name timeoutMs s e).resolved = true := by
  cases e with
  | stderrMsg m =>
    simp only [decidingOutcome] at h
    split at h
    · rename_i hready
      simp only [Option.some.injEq] at h
      simp [startStep, hready, hres, h]
    · split at h
      · rename_i hready herror
        simp only [Option.some.injEq] at h
        simp only [startStep]
        rw [if_neg (by simp [hready]), if_pos herror]
        simp [hres, h]
      · exact absurd h (by simp)
  | spawnError msg =>
    simp only [decidingOutcome, Option.some.injEq] at h
    simp [startStep, hres, h]
  | exited code signal =>
    simp only [decidingOutcome, Option.some.injEq] at h
    simp [startStep, hres, h]
  | timeoutFired =>
    simp only [decidingOutcome, Option.some.injEq] at h
    simp [startStep, hres, h]

theorem foldlStart_resolved (name : String) (timeoutMs : Nat)
    (es : List StartEvent) (s : StartState) (h : s.resolved = true) :
    (es.foldl (startStep name timeoutMs) s).outcome = s.outcome
    ∧ (es.foldl (startStep name timeoutMs) s).resolved = true := by
  induction es generalizing s with
  | nil => exact ⟨rfl, h⟩
  | cons e es ih =>
    have h1 := startStep_resolved name timeoutMs s e h
    simp only [List.foldl_cons]
    have h2 := ih (startStep name timeoutMs s e) h1.2
    exact ⟨h2.1.trans h1.1, h2.2⟩

theorem foldlStart_process (name : String) (timeoutMs : Nat)
    (es : List StartEvent) (s : StartState) (h : s.process = false) :
    (es.foldl (startStep name timeoutMs) s).process = false := by
  induction es generalizing s with
  | nil => exact h
  | cons e es ih =>
    simp only [List.foldl_cons]
    exact ih _ (startStep_process_mono name timeoutMs s e h)

theorem foldlStart_outcome (name : String) (timeoutMs : Nat)
    (es : List StartEvent) (s : StartState)
    (hres : s.resolved = false) (hout : s.outcome = none) :
    (es.foldl (startStep name timeoutMs) s).outcome
      = es.findSome? (decidingOutcome name timeoutMs) := by
  induction es generalizing s with
  | nil => exact hout
  | cons e es ih =>
    simp only [List.foldl_cons, List.findSome?]
    cases hd : decidingOutcome name timeoutMs e with
    | none =>
      rw [startStep_nondeciding name timeoutMs s e hd]
      exact ih s hres hout
    | some o =>
      have h1 := startStep_deciding name timeoutMs s e o hres hd
      have h2 := foldlStart_resolved name timeoutMs es _ h1.2
      rw [h2.1, h1.1]

theorem foldlStart_timeout (name : String) (timeoutMs : Nat)
    (es : List StartEvent) (s : StartState) (hres : s.resolved = false)
    (hfind : es.find? (isDeciding name timeoutMs) = some .timeoutFired) :
    (es.foldl (startStep name timeoutMs) s).outcome
        = some (.error (readyTimeoutError name timeoutMs))
    ∧ (es.foldl (startStep name timeoutMs) s).process = false := by
  induction es generalizing s with
  | nil => simp at hfind
  | cons e es ih =>
    simp only [List.find?] at hfind
    cases hp : isDeciding name timeoutMs e with
    | false =>
      rw [hp] at hfind
      have hd : decidingOutcome name timeoutMs e = none := by
        simpa [isDeciding, Option.isSome_iff_exists] using hp
      simp only [List.foldl_cons, startStep_nondeciding name timeoutMs s e hd]
      exact ih s hres hfind
    | true =>
      rw [hp] at hfind
      simp only [Option.some.injEq] at hfind
      subst hfind
      simp only [List.foldl_cons]
      have hstep : startStep name timeoutMs s .timeoutFired
          = { s with resolved := true, process := false,
                     outcome := some (.error (readyTimeoutError name timeoutMs)) } := by
        simp [startStep, hres]
      rw [hstep]
      refine ⟨?_, foldlStart_process name timeoutMs es _ rfl⟩
      have h2 := foldlStart_resolved name timeoutMs es
        { s with resolved := true, process := false,
                 outcome := some (.error (readyTimeoutError name timeoutMs)) } rfl
      exact h2.1

/-- C4: the in-flight `start()` is settled by whichever of a `ready`
message, an `error` message, a spawn error, a process exit, or the
readiness timeout occurs first (the `resolved` flag makes the first
occurrence win); and when the timeout fires first, `start()` rejects
with the timeout `BinaryError` and the child has been force-killed —
no process is left running. -/
theorem c4_start_race (name : String) (timeoutMs : Nat)
    (events : List StartEvent) :
    (runStart name timeoutMs events).outcome
        = events.findSome? (decidingOutcome name timeoutMs)
    ∧ (events.find? (isDeciding name timeoutMs) = some .timeoutFired →
        (runStart name timeoutMs events).outcome
            = some (.error (readyTimeoutError name timeoutMs))
        ∧ (runStart name timeoutMs events).process = false) :=
  ⟨foldlStart_outcome name timeoutMs events startInit rfl rfl,
   fun h => foldlStart_timeout name timeoutMs events startInit rfl h⟩

/-- Witness for C4: a `stopped` message (which decides nothing)
followed by the readiness timeout rejects the start and leaves no
process running. -/
theorem c4_start_race_witness :
    (runStart "system-audio" 10000 [.stderrMsg stoppedMsg, .timeoutFired]).outcome
        = some (.error (readyTimeoutError "system-audio" 10000))
    ∧ (runStart "system-audio" 10000 [.stderrMsg stoppedMsg, .timeoutFired]).process
        = false :=
  (c4_start_race "system-audio" 10000 [.stderrMsg stoppedMsg, .timeoutFired]).2
    (by decide)

theorem wordCopy_eq_id : wordCopy = id :=
  funext fun _ => rfl

theorem parseAlts_transcripts (dur : Option JsNum) (alts : List BatchAlt) :
    ((alts.filterMap (fun alt =>
        if alt.transcript = "" then none
        else
          some
            ({ source := "system", transcript := alt.transcript, is_final := true,
               confidence := alt.confidence.getD 0,
               words := (alt.words.getD []).map wordCopy,
               duration := dur } : TranscriptEvent))).map TranscriptEvent.transcript)
      = (alts.map BatchAlt.transcript).filter (fun t => !(t == "")) := by
  induction alts with
  | nil => rfl
  | cons a as ih =>
    by_cases ha : a.transcript = ""
    · simp [List.filterMap_cons, ha, List.filter_cons, ih]
    · simp [List.filterMap_cons, ha, List.filter_cons, ih]

/-- C8: a successfully parsed batch upload response yields exactly one
`TranscriptEvent` per alternative with non-empty transcript, across all
channels, in response order (the emitted transcripts are precisely the
non-empty alternative transcripts in order); in particular the canned
response with two non-empty alternatives and one empty one yields
exactly two events. -/
theorem c8_batch_parse (r : BatchResponse) :
    (parseResponse r).map TranscriptEvent.transcript
      = ((responseChannels r).flatMap
          (fun ch => (ch.alternatives.getD []).map BatchAlt.transcript)).filter
            (fun t => !(t == ""))
    ∧ (parseResponse c8canned).length = 2
    ∧ (parseResponse c8canned).map TranscriptEvent.transcript = ["hello", "world"] := by
  refine ⟨?_, by decide, by decide⟩
  unfold parseResponse
  induction responseChannels r with
  | nil => rfl
  | cons c cs ih =>
    simp only [List.flatMap_cons, List.map_append, List.filter_append, ih]
    rw [parseAlts_transcripts]

/-- C9 counterexample: a `Results` response whose first alternative has
empty text but whose second alternative does not carries an alternative
with non-empty text, yet `handleResponse` emits nothing — the claim's
"if" direction fails on the code, which inspects only
`alternatives[0]`. -/
theorem c9_counterexample :
    handleResponse "system" c9resp = none
    ∧ ∃ alt ∈ (c9resp.channel.getD { alternatives := [] }).alternatives,
        alt.transcript ≠ "" := by
  decide

/-- C9 (amended): for a `Results` response, a `TranscriptEvent` is
emitted iff the *first* alternative exists and has non-empty text (so
in particular only if some alternative has non-empty text); when
emitted, `is_final` is the response's `is_final` defaulting to `false`,
and the first alternative's word-level detail is passed through
unmodified. -/
theorem c9_amended (label : String) (r : DeepgramResponse)
    (h : r.type = "Results") :
    ((handleResponse label r).isSome ↔
       ∃ alt, firstAlt r = some alt ∧ alt.transcript ≠ "")
    ∧ (∀ alt, firstAlt r = some alt → alt.transcript ≠ "" →
        handleResponse label r = some (.transcript
          { source := label, transcript := alt.transcript,
            is_final := r.is_final.getD false, confidence := alt.confidence,
            words := alt.words, speech_final := r.speech_final,
            channel_index := r.channel_index, duration := r.duration,
            start := r.start })) := by
  have hnotue : ¬ r.type = "UtteranceEnd" := by rw [h]; decide
  cases hfa : firstAlt r with
  | none =>
    constructor
    · simp [handleResponse, hfa, h, hnotue]
    · intro alt halt
      exact absurd halt (by simp)
  | some alt =>
    by_cases htr : alt.transcript = ""
    · constructor
      · simp [handleResponse, hfa, h, htr]
      · intro alt2 halt2 htr2
        simp only [Option.some.injEq] at halt2
        exact absurd (halt2 ▸ htr) htr2
    · constructor
      · constructor
        · intro _
          exact ⟨alt, rfl, htr⟩
        · intro _
          simp [handleResponse, hfa, h, htr]
      · intro alt2 halt2 _
        simp only [Option.some.injEq] at halt2
        subst halt2
        simp [handleResponse, hfa, h, htr, wordCopy_eq_id]

/-- Witness for C9: a `Results` response whose first alternative is
non-empty is emitted with its word detail unchanged. -/
theorem c9_amended_witness :
    handleResponse "mic" c9okResp = some (.transcript
      { source := "mic", transcript := altHello.transcript,
        is_final := c9okResp.is_final.getD false,
        confidence := altHello.confidence, words := altHello.words,
        speech_final := c9okResp.speech_final,
        channel_index := c9okResp.channel_index,
        duration := c9okResp.duration, start := c9okResp.start }) :=
  (c9_amended "mic" c9okResp rfl).2 altHello rfl (by decide)

/-- C2: when the buffered bytes decompose into complete
newline-terminated lines plus a trailing fragment, one call of the
codec emits exactly one decoded message per line that parses as JSON,
in input order (`filterMap decodeLine`: empty and non-JSON lines are
dropped without error, since `decodeLine` is total), and retains
exactly the final fragment; moreover the concrete `ready` + split
`stopped` message fed across two calls yields exactly the two decoded
messages, and a non-JSON line yields none. -/
theorem c2_codec (stderrBuffer data : List Char) (ls : List (List Char))
    (frag : List Char)
    (hdecomp : stderrBuffer ++ data = interNl (ls ++ [frag]))
    (hls : ∀ l ∈ ls, '\n' ∉ l) (hfrag : '\n' ∉ frag) :
    feedStderr stderrBuffer data = (ls.filterMap decodeLine, frag)
    ∧ ((feedStderr [] chunkA).1
        ++ (feedStderr (feedStderr [] chunkA).2 chunkB).1).map jsonType
        = [some "ready", some "stopped"]
    ∧ ((feedStderr [] chunkA).1
        ++ (feedStderr (feedStderr [] chunkA).2 chunkB).1).length = 2
    ∧ (feedStderr [] badChunk).1.length = 0
    ∧ (feedStderr [] badChunk).2 = [] := by
  refine ⟨?_, by decide, by decide, by decide, by decide⟩
  unfold feedStderr processStderrMessages
  rw [hdecomp]
  have hall : ∀ p ∈ ls ++ [frag], '\n' ∉ p := by
    intro p hp
    rcases List.mem_append.mp hp with h1 | h2
    · exact hls p h1
    · rw [List.mem_singleton.mp h2]
      exact hfrag
  rw [splitNl_interNl (ls ++ [frag]) (by simp) hall]
  simp [List.dropLast_concat, List.getLast?_concat]

/-- Witness for C2: the first chunk of the split-message example
decodes its one complete line and retains the open fragment. -/
theorem c2_codec_witness :
    feedStderr [] chunkA = ([lineA].filterMap decodeLine, fragA) :=
  (c2_codec [] chunkA [lineA] fragA (by decide) (by decide) (by decide)).1

end DgElectron
